import Mathlib

/-!
# GeoST core data model: Collection = Header + Data

A shallow embedding of the core data model of the GeoST package
(Deltares-research/geost): the `Collection` abstraction pairing a per-object
`Header` table with a per-row `Data` table, together with its selection,
slicing and reference-change operations.

The repository ships documentation, tutorials and API references but not the
Python implementation itself, so every operation below is modelled from the
specification and from the behaviour documented in the tutorials (concrete
inputs and outputs shown in the notebook cells) and the changelog.

Numeric columns (coordinates, elevations, depths) take values in an
arbitrary linear ordered commutative ring `α`: every core operation uses
only the order and the additive structure, so the theorems hold uniformly
for the idealised real-valued data; concrete witnesses instantiate `α := ℤ`,
where evaluation is decidable. Identifiers are naturals; string-valued data
columns (e.g. lithology) are an association list from column name to value.
-/

namespace GeoST

variable {α : Type} [LinearOrderedCommRing α]

/-- Modelled from the spec: the vertical reference is an enumerated value in
three conventions — NAP (absolute national datum), surface-relative
("surfacelevel", surface is 0), and depth-from-top ("depth", borehole length
starting at 0, increasing downward). -/
inductive VRef where
  | nap
  | surfacelevel
  | depth
deriving DecidableEq

/-- Modelled from the spec: convert a depth-like value of an object with
surface elevation `sl` from vertical reference `r` into the absolute (NAP)
convention: absolute = surface-relative + surface_level and
absolute = (depth-from-top negated) + surface_level. -/
def toNAP (r : VRef) (sl v : α) : α :=
  match r with
  | .nap => v
  | .surfacelevel => v + sl
  | .depth => sl - v

/-- Modelled from the spec: convert an absolute (NAP) value of an object with
surface elevation `sl` into vertical reference `r` (inverse of `toNAP`). -/
def fromNAP (r : VRef) (sl v : α) : α :=
  match r with
  | .nap => v
  | .surfacelevel => v - sl
  | .depth => sl - v

/-- Conversion of a depth-like value from vertical reference `a` to `b`. -/
def convertV (a b : VRef) (sl v : α) : α :=
  fromNAP b sl (toNAP a sl v)

/-- One row of a `Header` table: one physical object (borehole/CPT) with its
id, scalar x/y coordinates, surface elevation, end depth, a 2D point geometry
(`gx`, `gy`), and arbitrary user-added scalar columns (`extra`). -/
structure HeaderRow (α : Type) where
  id : Nat
  x : α
  y : α
  surface_level : α
  end_depth : α
  gx : α
  gy : α
  extra : List (String × α)
deriving DecidableEq

/-- One row of a `LayeredData` table: a depth interval `[top, bottom]` of one
object, with string-valued attribute columns (e.g. lithology "lith"). -/
structure LayerRow (α : Type) where
  id : Nat
  top : α
  bottom : α
  attrs : List (String × String)
deriving DecidableEq

/-- A `Collection` owns one Header and one Data table plus the horizontal
(EPSG code) and vertical reference the coordinates are expressed in. -/
structure Collection (α : Type) where
  header : List (HeaderRow α)
  data : List (LayerRow α)
  href : Nat
  vref : VRef
deriving DecidableEq

/-- The set of object ids present in the header table. -/
def headerIds (c : Collection α) : Finset Nat :=
  (c.header.map HeaderRow.id).toFinset

/-- The set of object ids present in the data table. -/
def dataIds (c : Collection α) : Finset Nat :=
  (c.data.map LayerRow.id).toFinset

/-- The central alignment invariant of the system:
`set(Header.id) == set(Data.id)`. -/
def aligned (c : Collection α) : Prop :=
  headerIds c = dataIds c

instance (c : Collection α) : Decidable (aligned c) := by
  unfold aligned; infer_instance

/-- Surface elevation of object `i` as recorded in the header rows
(0 if the id is absent; conversions are only ever applied to aligned
collections, where every data id has a header row). -/
def slOf (h : List (HeaderRow α)) (i : Nat) : α :=
  match h.find? (fun r => r.id == i) with
  | some r => r.surface_level
  | none => 0

/-- Modelled from the spec: `change_vertical_reference(target)` recomputes
every data row's `top`/`bottom` and every header row's `end_depth` by
adding/subtracting the object's `surface_level` according to the conversion
between the collection's current vertical reference and the target, and
records the new vertical reference. (The `surface_level` column itself is the
datum elevation used by the conversion and is left as-is, as shown in the
tutorial output.) -/
def changeVerticalReference (c : Collection α) (t : VRef) : Collection α :=
  { c with
    header := c.header.map (fun r =>
      { r with end_depth := convertV c.vref t r.surface_level r.end_depth })
    data := c.data.map (fun r =>
      { r with
        top := convertV c.vref t (slOf c.header r.id) r.top
        bottom := convertV c.vref t (slOf c.header r.id) r.bottom })
    vref := t }

theorem convertV_round (a b : VRef) (sl v : α) :
    convertV b a sl (convertV a b sl v) = v := by
  cases a <;> cases b <;> simp [convertV, toNAP, fromNAP]

theorem map_id_of {β : Type} (l : List β) (f : β → β)
    (h : ∀ x ∈ l, f x = x) : l.map f = l := by
  induction l with
  | nil => rfl
  | cons a l ih =>
    simp only [List.map_cons, h a (List.mem_cons_self a l)]
    rw [ih (fun x hx => h x (List.mem_cons_of_mem a hx))]

theorem slOf_map (h : List (HeaderRow α)) (f : HeaderRow α → HeaderRow α)
    (i : Nat) (hid : ∀ r, (f r).id = r.id)
    (hsl : ∀ r, (f r).surface_level = r.surface_level) :
    slOf (h.map f) i = slOf h i := by
  induction h with
  | nil => rfl
  | cons r h ih =>
    simp only [List.map_cons, slOf, List.find?_cons, hid]
    cases hr : (r.id == i) with
    | true => simp [hsl]
    | false => exact ih

/-- Value of string column `col` in a data row (none if the column is absent). -/
def getAttr (r : LayerRow α) (col : String) : Option String :=
  r.attrs.lookup col

/-- Does data row `r` match `col == v`? -/
def matchesVal (col v : String) (r : LayerRow α) : Bool :=
  getAttr r col == some v

/-- Ids of the objects having at least one data row matching `col == v`. -/
def matchingIds (rows : List (LayerRow α)) (col v : String) : List Nat :=
  (rows.filter (matchesVal col v)).map LayerRow.id

/-- Modelled from the spec: `select_by_values(column, value)` ("or"
semantics) keeps ALL rows belonging to an object id if that object has at
least one matching row — an object-level filter via a group-by-id reduction,
not a per-row filter. -/
def selectByValuesData (rows : List (LayerRow α)) (col v : String) :
    List (LayerRow α) :=
  rows.filter (fun r => decide (r.id ∈ matchingIds rows col v))

/-- Modelled from the spec: `slice_by_values(column, values)` drops the
individual rows not matching, WITHOUT removing the object if other rows
remain (row-level, not object-level). -/
def sliceByValuesData (rows : List (LayerRow α)) (col v : String) :
    List (LayerRow α) :=
  rows.filter (matchesVal col v)

/-- Modelled from the spec: clip one layer to the depth interval
`[upper, lower]` (depth increasing downward): the part of `[top, bottom]`
inside the interval, splitting a straddling layer at the boundary; `none`
when nothing of the layer remains. -/
def clipLayer (upper lower : α) (r : LayerRow α) : Option (LayerRow α) :=
  if max r.top upper < min r.bottom lower then
    some { r with top := max r.top upper, bottom := min r.bottom lower }
  else none

/-- Modelled from the spec: `slice_depth_interval(upper, lower)` clips every
object's layers to the interval, recomputing `top`/`bottom` for partial
layers and dropping layers that fall fully outside. -/
def sliceDepthIntervalData (upper lower : α) (rows : List (LayerRow α)) :
    List (LayerRow α) :=
  rows.filterMap (clipLayer upper lower)

/-- Modelled from the spec: cumulative thickness of the rows of object `i`
matching `col == v`: the sum of `(bottom - top)` over those rows. -/
def cumulativeThicknessOf (rows : List (LayerRow α)) (i : Nat)
    (col v : String) : α :=
  ((rows.filter (fun r => r.id == i && matchesVal col v r)).map
    (fun r => r.bottom - r.top)).sum

/-- Modelled from the spec: `get_cumulative_layer_thickness(column, value)`
grouped by id, computed for every object of the collection's header; objects
with no matching rows get `0`, not a missing value. -/
def getCumulativeLayerThickness (c : Collection α) (col v : String) :
    List (Nat × α) :=
  c.header.map (fun h => (h.id, cumulativeThicknessOf c.data h.id col v))

/-- Modelled from the spec: `get_cumulative_layer_thickness(column, value,
include_in_header=True)` additionally appends the per-object result as a new
scalar column of the header, re-synchronized via the object id. -/
def withThicknessColumn (c : Collection α) (name col v : String) :
    Collection α :=
  { c with
    header := c.header.map (fun h =>
      { h with
        extra := h.extra ++ [(name, cumulativeThicknessOf c.data h.id col v)] }) }

/-- Modelled from the spec: `Header.change_horizontal_reference(target)`
reprojects every `(x, y)` pair and geometry of a header row by the
deterministic forward transform `f` of the backend; with
`only_geometries = true` only the geometry is updated and the scalar `x`/`y`
columns are left untouched. -/
def reprojectRow (f : α × α → α × α) (onlyGeometries : Bool)
    (r : HeaderRow α) : HeaderRow α :=
  if onlyGeometries then
    { r with gx := (f (r.gx, r.gy)).1, gy := (f (r.gx, r.gy)).2 }
  else
    { r with
      x := (f (r.x, r.y)).1
      y := (f (r.x, r.y)).2
      gx := (f (r.gx, r.gy)).1
      gy := (f (r.gx, r.gy)).2 }

/-- Horizontal reference change of a whole header table. -/
def changeHorizontalReferenceHeader (rows : List (HeaderRow α))
    (f : α × α → α × α) (onlyGeometries : Bool) : List (HeaderRow α) :=
  rows.map (reprojectRow f onlyGeometries)

/-- Modelled from the spec: the Collection-level
`change_horizontal_reference(target, only_geometries)` applies the transform
to the header and records the new EPSG code. -/
def changeHorizontalReference (c : Collection α) (target : Nat)
    (f : α × α → α × α) (onlyGeometries : Bool) : Collection α :=
  { c with
    header := changeHorizontalReferenceHeader c.header f onlyGeometries
    href := target }

/-- Header rows whose geometry lies inside the bounding box (inclusive). -/
def bboxHeader (rows : List (HeaderRow α)) (xmin xmax ymin ymax : α) :
    List (HeaderRow α) :=
  rows.filter (fun r =>
    decide (xmin ≤ r.x ∧ r.x ≤ xmax ∧ ymin ≤ r.y ∧ r.y ≤ ymax))

/-- Modelled from the spec: `select_within_bbox(xmin, xmax, ymin, ymax)`
keeps the header rows whose geometry lies in the box (boundaries inclusive)
and then prunes the data to the surviving id set. -/
def selectWithinBbox (c : Collection α) (xmin xmax ymin ymax : α) :
    Collection α :=
  { c with
    header := bboxHeader c.header xmin xmax ymin ymax
    data := c.data.filter (fun r =>
      decide (r.id ∈ (bboxHeader c.header xmin xmax ymin ymax).map HeaderRow.id)) }

/-- Modelled from the spec: Collection-level `select_by_values` keeps the
objects with at least one matching data row, pruning both the header and the
data to the qualifying id set. -/
def selectByValues (c : Collection α) (col v : String) : Collection α :=
  { c with
    header := c.header.filter (fun h => decide (h.id ∈ matchingIds c.data col v))
    data := c.data.filter (fun r => decide (r.id ∈ matchingIds c.data col v)) }

/-- Modelled from the spec: Collection-level `slice_by_values` drops the
non-matching data rows and rebuilds the header strictly from the ids still
present in the data (`reset_header`), purging now-orphaned header rows. -/
def sliceByValues (c : Collection α) (col v : String) : Collection α :=
  { c with
    header := c.header.filter (fun h =>
      decide (h.id ∈ (sliceByValuesData c.data col v).map LayerRow.id))
    data := sliceByValuesData c.data col v }

/-- Modelled from the spec: Collection-level `slice_depth_interval` clips the
data rows and rebuilds the header from the surviving ids. -/
def sliceDepthInterval (c : Collection α) (upper lower : α) : Collection α :=
  { c with
    header := c.header.filter (fun h =>
      decide (h.id ∈ (sliceDepthIntervalData upper lower c.data).map LayerRow.id))
    data := sliceDepthIntervalData upper lower c.data }

/-- The Collection operations the spec's invariant ranges over: spatial and
value selection, row-level slicing, depth slicing, and the two reference
changes. -/
inductive Op (α : Type) where
  | selectWithinBbox (xmin xmax ymin ymax : α)
  | selectByValues (col v : String)
  | sliceByValues (col v : String)
  | sliceDepthInterval (upper lower : α)
  | changeVerticalReference (t : VRef)
  | changeHorizontalReference (target : Nat) (f : α × α → α × α)
      (onlyGeometries : Bool)

/-- The collection produced by one operation (for selection/slicing this is
the newly created instance; for the reference changes it is the updated state
of the collection). -/
def Op.apply (op : Op α) (c : Collection α) : Collection α :=
  match op with
  | .selectWithinBbox xmin xmax ymin ymax =>
      GeoST.selectWithinBbox c xmin xmax ymin ymax
  | .selectByValues col v => GeoST.selectByValues c col v
  | .sliceByValues col v => GeoST.sliceByValues c col v
  | .sliceDepthInterval u l => GeoST.sliceDepthInterval c u l
  | .changeVerticalReference t => GeoST.changeVerticalReference c t
  | .changeHorizontalReference target f g =>
      GeoST.changeHorizontalReference c target f g

/-- Selection and slicing operations (the ones documented to return a new
Collection instance). -/
def Op.isSelection (op : Op α) : Bool :=
  match op with
  | .selectWithinBbox _ _ _ _ => true
  | .selectByValues _ _ => true
  | .sliceByValues _ _ => true
  | .sliceDepthInterval _ _ => true
  | .changeVerticalReference _ => false
  | .changeHorizontalReference _ _ _ => false

/-- The state of the receiver after calling the method: the tutorials show
that selections and slices return a new instance and leave the receiver
untouched, while `change_vertical_reference` and
`change_horizontal_reference` update the receiver in place. -/
def Op.receiverAfter (op : Op α) (c : Collection α) : Collection α :=
  if op.isSelection then c else op.apply c

/-- Sequential application of a list of operations. -/
def applyOps (c : Collection α) : List (Op α) → Collection α
  | [] => c
  | op :: ops => applyOps (op.apply c) ops

omit [LinearOrderedCommRing α] in
theorem aligned_iff (c : Collection α) :
    aligned c ↔
      ∀ i, i ∈ c.header.map HeaderRow.id ↔ i ∈ c.data.map LayerRow.id := by
  unfold aligned headerIds dataIds
  rw [Finset.ext_iff]
  simp only [List.mem_toFinset]

theorem mem_map_filter_ids {β : Type} (rows : List β) (f : β → Nat)
    (ids : List Nat) (i : Nat) :
    (i ∈ (rows.filter (fun x => decide (f x ∈ ids))).map f) ↔
      i ∈ rows.map f ∧ i ∈ ids := by
  simp only [List.mem_map, List.mem_filter, decide_eq_true_eq]
  constructor
  · rintro ⟨x, ⟨hx, hq⟩, rfl⟩
    exact ⟨⟨x, hx, rfl⟩, hq⟩
  · rintro ⟨⟨x, hx, rfl⟩, hq⟩
    exact ⟨x, ⟨hx, hq⟩, rfl⟩

theorem mem_map_of_mem_filter_map {β : Type} (rows : List β) (p : β → Bool)
    (f : β → Nat) (i : Nat) (h : i ∈ (rows.filter p).map f) :
    i ∈ rows.map f := by
  simp only [List.mem_map, List.mem_filter] at h ⊢
  obtain ⟨x, ⟨hx, -⟩, rfl⟩ := h
  exact ⟨x, hx, rfl⟩

theorem clipLayer_id (u l : α) (r r' : LayerRow α)
    (h : clipLayer u l r = some r') : r'.id = r.id := by
  unfold clipLayer at h
  split at h
  · cases h; rfl
  · cases h

theorem mem_ids_of_sliceDepth (rows : List (LayerRow α)) (u l : α) (i : Nat)
    (h : i ∈ (sliceDepthIntervalData u l rows).map LayerRow.id) :
    i ∈ rows.map LayerRow.id := by
  simp only [sliceDepthIntervalData, List.mem_map, List.mem_filterMap] at h ⊢
  obtain ⟨r', ⟨r, hr, hclip⟩, rfl⟩ := h
  exact ⟨r, hr, (clipLayer_id u l r r' hclip).symm ▸ rfl⟩

theorem map_congr_of {β γ : Type} (l : List β) (f g : β → γ)
    (h : ∀ x ∈ l, f x = g x) : l.map f = l.map g := by
  induction l with
  | nil => rfl
  | cons a l ih =>
    simp only [List.map_cons, h a (List.mem_cons_self a l)]
    rw [ih (fun x hx => h x (List.mem_cons_of_mem a hx))]

theorem aligned_selectWithinBbox (c : Collection α) (h : aligned c)
    (xmin xmax ymin ymax : α) :
    aligned (selectWithinBbox c xmin xmax ymin ymax) := by
  rw [aligned_iff] at h ⊢
  intro i
  simp only [selectWithinBbox]
  rw [mem_map_filter_ids]
  constructor
  · intro hi
    exact ⟨(h i).mp (mem_map_of_mem_filter_map _ _ _ _ hi), hi⟩
  · rintro ⟨-, hi⟩
    exact hi

omit [LinearOrderedCommRing α] in
theorem aligned_selectByValues (c : Collection α) (h : aligned c)
    (col v : String) : aligned (selectByValues c col v) := by
  rw [aligned_iff] at h ⊢
  intro i
  simp only [selectByValues]
  rw [mem_map_filter_ids, mem_map_filter_ids, h i]

omit [LinearOrderedCommRing α] in
theorem aligned_sliceByValues (c : Collection α) (h : aligned c)
    (col v : String) : aligned (sliceByValues c col v) := by
  rw [aligned_iff] at h ⊢
  intro i
  simp only [sliceByValues]
  rw [mem_map_filter_ids]
  constructor
  · rintro ⟨-, hi⟩
    exact hi
  · intro hi
    exact ⟨(h i).mpr (mem_map_of_mem_filter_map _ _ _ _ hi), hi⟩

theorem aligned_sliceDepthInterval (c : Collection α) (h : aligned c)
    (u l : α) : aligned (sliceDepthInterval c u l) := by
  rw [aligned_iff] at h ⊢
  intro i
  simp only [sliceDepthInterval]
  rw [mem_map_filter_ids]
  constructor
  · rintro ⟨-, hi⟩
    exact hi
  · intro hi
    exact ⟨(h i).mpr (mem_ids_of_sliceDepth _ _ _ _ hi), hi⟩

theorem aligned_changeVerticalReference (c : Collection α) (h : aligned c)
    (t : VRef) : aligned (changeVerticalReference c t) := by
  rw [aligned_iff] at h ⊢
  intro i
  simp only [changeVerticalReference]
  rw [List.map_map, List.map_map]
  exact h i

omit [LinearOrderedCommRing α] in
theorem reprojectRow_id (f : α × α → α × α) (b : Bool) (r : HeaderRow α) :
    (reprojectRow f b r).id = r.id := by
  unfold reprojectRow
  split <;> rfl

omit [LinearOrderedCommRing α] in
theorem aligned_changeHorizontalReference (c : Collection α) (h : aligned c)
    (target : Nat) (f : α × α → α × α) (b : Bool) :
    aligned (changeHorizontalReference c target f b) := by
  rw [aligned_iff] at h ⊢
  intro i
  simp only [changeHorizontalReference, changeHorizontalReferenceHeader]
  rw [List.map_map]
  have : c.header.map (HeaderRow.id ∘ reprojectRow f b) =
      c.header.map HeaderRow.id :=
    map_congr_of _ _ _ (fun r _ => reprojectRow_id f b r)
  rw [this]
  exact h i

theorem aligned_apply (op : Op α) (c : Collection α) (h : aligned c) :
    aligned (op.apply c) := by
  cases op with
  | selectWithinBbox xmin xmax ymin ymax =>
      exact aligned_selectWithinBbox c h xmin xmax ymin ymax
  | selectByValues col v => exact aligned_selectByValues c h col v
  | sliceByValues col v => exact aligned_sliceByValues c h col v
  | sliceDepthInterval u l => exact aligned_sliceDepthInterval c h u l
  | changeVerticalReference t => exact aligned_changeVerticalReference c h t
  | changeHorizontalReference target f b =>
      exact aligned_changeHorizontalReference c h target f b

/-- A small concrete aligned collection used to instantiate the general
theorems: two boreholes, three layers, RD coordinates (EPSG 28992), NAP
vertical reference. -/
def exCollection : Collection ℤ where
  header :=
    [⟨1, 0, 0, 2, -6, 0, 0, []⟩,
     ⟨2, 5, 5, 1, -4, 5, 5, [("H2_thickness", 1)]⟩]
  data :=
    [⟨1, 0, 1, [("lith", "Z")]⟩,
     ⟨1, 1, 3, [("lith", "K")]⟩,
     ⟨2, 0, 2, [("lith", "K")]⟩]
  href := 28992
  vref := .nap

/-- A concrete sequence of selection, slicing and reference-change
operations. -/
def exOps : List (Op ℤ) :=
  [.selectWithinBbox (-1) 6 (-1) 6,
   .selectByValues "lith" "K",
   .changeVerticalReference .depth,
   .sliceDepthInterval 0 2,
   .changeHorizontalReference 32631 (fun p => (p.1 + 100, p.2 + 200)) false,
   .sliceByValues "lith" "K"]

/-- C1: for every Collection, after any sequence of selection, slicing, or
reference-change operations, the set of object ids in the header equals the
set of object ids in the data: every header row has at least one data row
and every data row's id exists in the header, with no orphans in either
direction. -/
theorem claim_C1_alignment_invariant (c : Collection α) (h : aligned c)
    (ops : List (Op α)) : aligned (applyOps c ops) := by
  induction ops generalizing c with
  | nil => exact h
  | cons op ops ih => exact ih (op.apply c) (aligned_apply op c h)

/-- Witness for C1 at a concrete collection and operation sequence. -/
theorem claim_C1_witness :
    aligned exCollection ∧ aligned (applyOps exCollection exOps) :=
  ⟨by decide, claim_C1_alignment_invariant exCollection (by decide) exOps⟩

/-- C2 counterexample: `change_vertical_reference` updates the receiver in
place (as the tutorials document), so after the call the original
Collection's attributes are NOT unchanged: the receiver of a concrete
NAP-referenced collection differs from its state after
`change_vertical_reference("depth")`. -/
theorem claim_C2_counterexample :
    (Op.changeVerticalReference VRef.depth).receiverAfter exCollection ≠
      exCollection := by
  intro h
  have hv := congrArg Collection.vref h
  simp [Op.receiverAfter, Op.apply, Op.isSelection, changeVerticalReference,
    exCollection] at hv

/-- C2 (amended): selection and slicing methods return a new Collection and
leave the receiver unchanged, but `change_vertical_reference` and
`change_horizontal_reference` update the receiver in place, recording the
target reference on the receiver itself. -/
theorem claim_C2_receiver_effects (c : Collection α) (op : Op α) :
    (op.isSelection = true → op.receiverAfter c = c) ∧
    (∀ t : VRef,
      ((Op.changeVerticalReference t).receiverAfter c).vref = t) ∧
    (∀ (target : Nat) (f : α × α → α × α) (b : Bool),
      ((Op.changeHorizontalReference target f b).receiverAfter c).href =
        target) := by
  refine ⟨fun h => ?_, fun t => rfl, fun target f b => rfl⟩
  unfold Op.receiverAfter
  rw [h]
  rfl

/-- Witness for C2 (amended) at a concrete collection: a selection leaves
the receiver unchanged, a vertical reference change updates it in place. -/
theorem claim_C2_witness :
    (Op.selectByValues "lith" "K").receiverAfter exCollection = exCollection ∧
      ((Op.changeVerticalReference VRef.depth).receiverAfter
        exCollection).vref = VRef.depth :=
  ⟨(claim_C2_receiver_effects exCollection (Op.selectByValues "lith" "K")).1
      rfl,
   (claim_C2_receiver_effects exCollection
      (Op.selectByValues "lith" "K")).2.1 VRef.depth⟩

/-- C3: for every Collection whose current vertical reference is `a` and
every target reference `b`, `change_vertical_reference(b)` followed by
`change_vertical_reference(a)` reproduces the original collection — in
particular all `top`, `bottom` and `end_depth` values — exactly (the model
computes in an exact ordered ring, so the floating-point tolerance is met
with equality). -/
theorem claim_C3_vertical_reference_roundtrip (c : Collection α) (a b : VRef)
    (h : c.vref = a) :
    changeVerticalReference (changeVerticalReference c b) a = c := by
  subst h
  obtain ⟨H, D, hr, vr⟩ := c
  unfold changeVerticalReference
  simp only [List.map_map]
  have hsl : ∀ i, slOf (H.map (fun r =>
      { r with end_depth := convertV vr b r.surface_level r.end_depth })) i =
      slOf H i :=
    fun i => slOf_map H _ i (fun r => rfl) (fun r => rfl)
  congr 1
  · apply map_id_of
    intro r _
    simp only [Function.comp_apply, convertV_round]
  · apply map_id_of
    intro r _
    simp only [Function.comp_apply, hsl, convertV_round]

/-- Witness for C3 at a concrete collection: NAP → depth → NAP is the
identity. -/
theorem claim_C3_witness :
    exCollection.vref = VRef.nap ∧
      changeVerticalReference
        (changeVerticalReference exCollection VRef.depth) VRef.nap =
        exCollection :=
  ⟨rfl, claim_C3_vertical_reference_roundtrip exCollection VRef.nap VRef.depth
    rfl⟩

omit [LinearOrderedCommRing α] in
/-- C4: for an object `i` whose layers contain both a row matching
`col == v` and a row not matching, `select_by_values` retains the whole
object including its non-matching rows (object-level filter), while
`slice_by_values` retains exactly the matching rows of that object
(row-level filter). -/
theorem claim_C4_select_vs_slice (rows : List (LayerRow α)) (i : Nat)
    (col v : String)
    (hmatch : ∃ r ∈ rows, r.id = i ∧ matchesVal col v r = true)
    (_hdiff : ∃ r ∈ rows, r.id = i ∧ matchesVal col v r = false) :
    (∀ r ∈ rows, r.id = i → r ∈ selectByValuesData rows col v) ∧
    (∀ r ∈ rows, r.id = i →
      (r ∈ sliceByValuesData rows col v ↔ matchesVal col v r = true)) := by
  constructor
  · intro r hr hri
    unfold selectByValuesData
    rw [List.mem_filter]
    refine ⟨hr, ?_⟩
    rw [decide_eq_true_eq]
    obtain ⟨r0, hr0, hid0, hm0⟩ := hmatch
    unfold matchingIds
    rw [List.mem_map]
    exact ⟨r0, List.mem_filter.mpr ⟨hr0, hm0⟩, by rw [hid0, hri]⟩
  · intro r hr hri
    unfold sliceByValuesData
    rw [List.mem_filter]
    constructor
    · rintro ⟨-, hm⟩
      exact hm
    · intro hm
      exact ⟨hr, hm⟩

/-- The two layers of the documented example: an object with a sand layer
("Z") and a clay layer ("K"). -/
def exZKRows : List (LayerRow ℤ) :=
  [⟨1, 0, 1, [("lith", "Z")]⟩, ⟨1, 1, 3, [("lith", "K")]⟩]

/-- Witness for C4 at the documented example: selecting on lith = "Z" keeps
both rows of the object, slicing keeps only the matching one. -/
theorem claim_C4_witness :
    (∀ r ∈ exZKRows, r.id = 1 → r ∈ selectByValuesData exZKRows "lith" "Z") ∧
    (∀ r ∈ exZKRows, r.id = 1 →
      (r ∈ sliceByValuesData exZKRows "lith" "Z" ↔
        matchesVal "lith" "Z" r = true)) :=
  claim_C4_select_vs_slice exZKRows 1 "lith" "Z"
    ⟨⟨1, 0, 1, [("lith", "Z")]⟩, by decide, rfl, by decide⟩
    ⟨⟨1, 1, 3, [("lith", "K")]⟩, by decide, rfl, by decide⟩

theorem cumulativeThicknessOf_eq_zero (rows : List (LayerRow α)) (i : Nat)
    (col v : String)
    (hnone : ∀ r ∈ rows, r.id = i → matchesVal col v r = false) :
    cumulativeThicknessOf rows i col v = 0 := by
  unfold cumulativeThicknessOf
  have : rows.filter (fun r => r.id == i && matchesVal col v r) = [] := by
    rw [List.filter_eq_nil_iff]
    intro r hr
    rw [Bool.and_eq_true, beq_iff_eq]
    rintro ⟨hid, hm⟩
    rw [hnone r hr hid] at hm
    cases hm
  rw [this]
  rfl

/-- C5: for every Collection and every object id in the header that has zero
data rows matching `col == v`, `get_cumulative_layer_thickness(col, v)` has
an entry for that object and the entry's value is `0`, not a missing value
or an absent entry. -/
theorem claim_C5_cumulative_thickness_zero (c : Collection α) (i : Nat)
    (col v : String) (hi : i ∈ c.header.map HeaderRow.id)
    (hnone : ∀ r ∈ c.data, r.id = i → matchesVal col v r = false) :
    (∃ p ∈ getCumulativeLayerThickness c col v, p.1 = i) ∧
    (∀ p ∈ getCumulativeLayerThickness c col v, p.1 = i → p.2 = 0) := by
  constructor
  · rw [List.mem_map] at hi
    obtain ⟨h, hh, hid⟩ := hi
    exact ⟨(h.id, cumulativeThicknessOf c.data h.id col v),
      List.mem_map.mpr ⟨h, hh, rfl⟩, hid⟩
  · intro p hp hpi
    rw [getCumulativeLayerThickness, List.mem_map] at hp
    obtain ⟨h, -, rfl⟩ := hp
    simp only at hpi
    rw [hpi] at *
    exact cumulativeThicknessOf_eq_zero c.data i col v hnone

/-- Witness for C5: in the concrete collection, object 1 has no layer with
lith = "V" (peat), and its cumulative thickness entry is present and 0. -/
theorem claim_C5_witness :
    (1 ∈ exCollection.header.map HeaderRow.id ∧
      ∀ r ∈ exCollection.data, r.id = 1 → matchesVal "lith" "V" r = false) ∧
    ((∃ p ∈ getCumulativeLayerThickness exCollection "lith" "V", p.1 = 1) ∧
      (∀ p ∈ getCumulativeLayerThickness exCollection "lith" "V",
        p.1 = 1 → p.2 = 0)) :=
  ⟨⟨by decide, by decide⟩,
    claim_C5_cumulative_thickness_zero exCollection 1 "lith" "V" (by decide)
      (by decide)⟩

/-- C6: `slice_depth_interval` clips a layer to the requested interval,
splitting a straddling layer at the boundary: a layer fully outside the
interval is dropped, a layer fully inside is unchanged, and a layer
straddling both boundaries yields exactly one output layer with
`top = upper`, `bottom = lower`. -/
theorem claim_C6_slice_depth_interval (r : LayerRow α) (u l : α)
    (hr : r.top < r.bottom) (hul : u < l) :
    (r.bottom ≤ u ∨ l ≤ r.top → sliceDepthIntervalData u l [r] = []) ∧
    (u ≤ r.top → r.bottom ≤ l → sliceDepthIntervalData u l [r] = [r]) ∧
    (r.top ≤ u → l ≤ r.bottom →
      sliceDepthIntervalData u l [r] = [{ r with top := u, bottom := l }]) := by
  refine ⟨?_, ?_, ?_⟩
  · intro h
    have hc : clipLayer u l r = none := by
      unfold clipLayer
      cases h with
      | inl h =>
        rw [if_neg]
        exact not_lt.mpr (le_trans (le_trans (min_le_left _ _) h)
          (le_max_right _ _))
      | inr h =>
        rw [if_neg]
        exact not_lt.mpr (le_trans (le_trans (min_le_right _ _) h)
          (le_max_left _ _))
    simp [sliceDepthIntervalData, hc]
  · intro h1 h2
    have hc : clipLayer u l r = some r := by
      unfold clipLayer
      rw [max_eq_left h1, min_eq_left h2, if_pos hr]
    simp [sliceDepthIntervalData, hc]
  · intro h1 h2
    have hc : clipLayer u l r = some { r with top := u, bottom := l } := by
      unfold clipLayer
      rw [max_eq_right h1, min_eq_right h2, if_pos hul]
    simp [sliceDepthIntervalData, hc]

/-- Witness for C6 at the documented example: `top=0, bottom=10` sliced to
`[3, 7]` yields exactly `top=3, bottom=7`; a fully inside layer `[4, 6]` is
unchanged; a fully outside layer `[8, 10]` is dropped. -/
theorem claim_C6_witness :
    sliceDepthIntervalData (3 : ℤ) 7 [⟨1, 0, 10, []⟩] = [⟨1, 3, 7, []⟩] ∧
    sliceDepthIntervalData (3 : ℤ) 7 [⟨1, 4, 6, []⟩] = [⟨1, 4, 6, []⟩] ∧
    sliceDepthIntervalData (3 : ℤ) 7 [⟨1, 8, 10, []⟩] = [] :=
  ⟨(claim_C6_slice_depth_interval ⟨1, 0, 10, []⟩ 3 7 (by decide)
      (by decide)).2.2 (by decide) (by decide),
   (claim_C6_slice_depth_interval ⟨1, 4, 6, []⟩ 3 7 (by decide)
      (by decide)).2.1 (by decide) (by decide),
   (claim_C6_slice_depth_interval ⟨1, 8, 10, []⟩ 3 7 (by decide)
      (by decide)).1 (Or.inr (by decide))⟩

/-- Modelled from the spec: a `VoxelModel` is a 3D regular grid over
`(x, y, z)` with coordinate vectors per axis, horizontal bounding extents, a
variable addressed by `(ix, iy, iz)` indices, and a "no data" marker value. -/
structure VoxelModel (α : Type) where
  xs : List α
  ys : List α
  zs : List α
  xmin : α
  xmax : α
  ymin : α
  ymax : α
  vals : Nat → Nat → Nat → α
  noData : α

/-- Does a point fall inside the horizontal extent of the grid? -/
def inExtent (vm : VoxelModel α) (p : α × α) : Bool :=
  decide (vm.xmin ≤ p.1 ∧ p.1 ≤ vm.xmax ∧ vm.ymin ≤ p.2 ∧ p.2 ≤ vm.ymax)

/-- Index and distance of the coordinate nearest to `p` (none for an empty
coordinate vector). -/
def nearestAux (p : α) : List α → Option (Nat × α)
  | [] => none
  | c :: rest =>
    match nearestAux p rest with
    | none => some (0, |c - p|)
    | some (j, dj) => if |c - p| ≤ dj then some (0, |c - p|) else some (j + 1, dj)

/-- Index of the grid coordinate nearest to `p`. -/
def nearestIdx (p : α) (cs : List α) : Nat :=
  match nearestAux p cs with
  | none => 0
  | some (j, _) => j

/-- The full z-profile of the grid column at indices `(ix, iy)`. -/
def columnProfile (vm : VoxelModel α) (ix iy : Nat) : List α :=
  (List.range vm.zs.length).map (fun iz => vm.vals ix iy iz)

/-- A profile in which every variable value is the "no data" marker. -/
def noDataProfile (vm : VoxelModel α) : List α :=
  List.replicate vm.zs.length vm.noData

/-- Modelled from the spec: sampling the voxel model at one point: the full
z-profile of the nearest (x, y) grid column, or an all-"no data" profile
when the point lies outside the grid extent (not a dropped row, not an
exception). -/
def samplePoint (vm : VoxelModel α) (p : α × α) : List α :=
  if inExtent vm p then
    columnProfile vm (nearestIdx p.1 vm.xs) (nearestIdx p.2 vm.ys)
  else noDataProfile vm

/-- Modelled from the spec: `VoxelModel.select_with_points(points)` stacks
the per-point profiles along a new "idx" dimension in input order. The
result is a plain indexed array of profiles — by its type it is not a
`VoxelModel` (the cardinality drops below 3 axes). -/
def selectWithPoints (vm : VoxelModel α) : List (α × α) → List (List α)
  | [] => []
  | p :: ps => samplePoint vm p :: selectWithPoints vm ps

/-- C7: point sampling returns exactly one output entry per input point, in
exactly the input order (the entry at index `i` is the sample of point `i`),
and a point outside the grid extent yields an all-"no data" profile rather
than a dropped row. -/
theorem claim_C7_voxel_point_sampling (vm : VoxelModel α)
    (ps : List (α × α)) :
    selectWithPoints vm ps = ps.map (samplePoint vm) ∧
    (selectWithPoints vm ps).length = ps.length ∧
    ∀ (i : Nat) (p : α × α), ps[i]? = some p → inExtent vm p = false →
      (selectWithPoints vm ps)[i]? = some (noDataProfile vm) := by
  have hmap : selectWithPoints vm ps = ps.map (samplePoint vm) := by
    induction ps with
    | nil => rfl
    | cons p ps ih => simp [selectWithPoints, ih]
  refine ⟨hmap, by rw [hmap, List.length_map], ?_⟩
  intro i p hp hout
  rw [hmap, List.getElem?_map, hp]
  simp [samplePoint, hout]

/-- A concrete 2×2×2 voxel model on `[0, 10] × [0, 10]`. -/
def exVoxelModel : VoxelModel ℤ where
  xs := [0, 10]
  ys := [0, 10]
  zs := [0, -1]
  xmin := 0
  xmax := 10
  ymin := 0
  ymax := 10
  vals := fun ix iy iz => (ix : ℤ) + iy + iz
  noData := -9999

/-- Three sample points; the middle one lies outside the grid extent. -/
def exPoints : List (ℤ × ℤ) := [(1, 1), (20, 20), (9, 2)]

/-- Witness for C7: three points in, three profiles out, and the
out-of-extent middle point gets the all-"no data" profile at index 1. -/
theorem claim_C7_witness :
    (selectWithPoints exVoxelModel exPoints).length = exPoints.length ∧
      (selectWithPoints exVoxelModel exPoints)[1]? =
        some (noDataProfile exVoxelModel) :=
  ⟨(claim_C7_voxel_point_sampling exVoxelModel exPoints).2.1,
   (claim_C7_voxel_point_sampling exVoxelModel exPoints).2.2 1 (20, 20)
     (by decide) (by decide)⟩

/-- The 13 documented boreholes of the basics tutorial (ids in the printed
row order; x/y in RD metres, surface level and end depth in centimetres to
stay integral; two layers per borehole). -/
def uspCollection : Collection ℤ where
  header :=
    [⟨0, 127562, 502816, -169, -559, 127562, 502816, []⟩,
     ⟨1, 128866, 504391, -382, -862, 128866, 504391, []⟩,
     ⟨2, 128867, 504421, -209, -599, 128867, 504421, []⟩,
     ⟨3, 128867, 504414, -348, -858, 128867, 504414, []⟩,
     ⟨4, 129010, 504400, -365, -895, 129010, 504400, []⟩,
     ⟨5, 129135, 504414, -356, -846, 129135, 504414, []⟩,
     ⟨6, 127272, 502323, -174, -554, 127272, 502323, []⟩,
     ⟨7, 129287, 504474, -317, -797, 129287, 504474, []⟩,
     ⟨8, 129294, 504441, -368, -958, 129294, 504441, []⟩,
     ⟨9, 129129, 504447, -290, -800, 129129, 504447, []⟩,
     ⟨10, 127082, 502096, -218, -588, 127082, 502096, []⟩,
     ⟨11, 127099, 502088, -282, -662, 127099, 502088, []⟩,
     ⟨12, 127296, 502338, -327, -667, 127296, 502338, []⟩]
  data :=
    (List.range 13).flatMap (fun i =>
      [⟨i, 0, 100, [("lith", "K")]⟩, ⟨i, 100, 200, [("lith", "Z")]⟩])
  href := 28992
  vref := .nap

/-- C8: on the documented collection of 13 boreholes,
`select_within_bbox(128600, 130000, 504000, 505000)` keeps exactly the 8
objects with ids {1, 2, 3, 4, 5, 7, 8, 9}, the resulting data is exactly the
original rows of those ids, and the data id set equals the header id set. -/
theorem claim_C8_bbox_selection :
    headerIds (selectWithinBbox uspCollection 128600 130000 504000 505000) =
      ({1, 2, 3, 4, 5, 7, 8, 9} : Finset Nat) ∧
    (selectWithinBbox uspCollection 128600 130000 504000 505000).data =
      uspCollection.data.filter (fun r =>
        decide (r.id ∈ [1, 2, 3, 4, 5, 7, 8, 9])) ∧
    dataIds (selectWithinBbox uspCollection 128600 130000 504000 505000) =
      headerIds (selectWithinBbox uspCollection 128600 130000 504000 505000) := by
  decide

omit [LinearOrderedCommRing α] in
/-- C9: `change_horizontal_reference` with `only_geometries = true` applies
the transform to the geometry column only: the id, the scalar `x` and `y`
columns, the elevations and every user-added column of every row are left
unchanged, while the geometry of every row becomes the transform of the old
geometry. -/
theorem claim_C9_only_geometries (rows : List (HeaderRow α))
    (f : α × α → α × α) :
    (changeHorizontalReferenceHeader rows f true).map (fun r =>
        (r.id, r.x, r.y, r.surface_level, r.end_depth, r.extra)) =
      rows.map (fun r =>
        (r.id, r.x, r.y, r.surface_level, r.end_depth, r.extra)) ∧
    (changeHorizontalReferenceHeader rows f true).map (fun r => (r.gx, r.gy)) =
      rows.map (fun r => f (r.gx, r.gy)) := by
  unfold changeHorizontalReferenceHeader
  rw [List.map_map, List.map_map]
  exact ⟨map_congr_of _ _ _ (fun r _ => by simp [reprojectRow]),
    map_congr_of _ _ _ (fun r _ => by simp [reprojectRow])⟩

/-- Modelled from the spec: `to_shape` exports the header's point geometries
together with every scalar column, including fields added to the header
during analysis. -/
def toShape (rows : List (HeaderRow α)) : List (α × α × List (String × α)) :=
  rows.map (fun r => (r.gx, r.gy, r.extra))

/-- Modelled from the spec: `to_geoparquet` exports the same header content
as `to_shape` (point geometries plus all scalar columns). -/
def toGeoparquet (rows : List (HeaderRow α)) :
    List (α × α × List (String × α)) :=
  rows.map (fun r => (r.gx, r.gy, r.extra))

/-- C10: columns added to the header after construction (for example by
`get_cumulative_layer_thickness(include_in_header=True)`) are preserved by
every subsequent selection or slice — each surviving header row is kept
whole, extra columns included — and are included in the header exports
`to_shape` and `to_geoparquet`. -/
theorem claim_C10_header_columns_preserved (c : Collection α) (op : Op α)
    (hop : op.isSelection = true) :
    (∀ r ∈ (op.apply c).header, r ∈ c.header) ∧
    (∀ r ∈ (op.apply c).header,
      (r.gx, r.gy, r.extra) ∈ toShape (op.apply c).header ∧
      (r.gx, r.gy, r.extra) ∈ toGeoparquet (op.apply c).header) := by
  constructor
  · cases op with
    | selectWithinBbox a b d e =>
      intro r hr
      simp only [Op.apply, selectWithinBbox, bboxHeader] at hr
      exact List.mem_of_mem_filter hr
    | selectByValues col v =>
      intro r hr
      simp only [Op.apply, selectByValues] at hr
      exact List.mem_of_mem_filter hr
    | sliceByValues col v =>
      intro r hr
      simp only [Op.apply, sliceByValues] at hr
      exact List.mem_of_mem_filter hr
    | sliceDepthInterval u l =>
      intro r hr
      simp only [Op.apply, sliceDepthInterval] at hr
      exact List.mem_of_mem_filter hr
    | changeVerticalReference t => simp [Op.isSelection] at hop
    | changeHorizontalReference a f b => simp [Op.isSelection] at hop
  · intro r hr
    exact ⟨List.mem_map_of_mem _ hr, List.mem_map_of_mem _ hr⟩

/-- Witness for C10: add a cumulative-thickness column to the header, select
within a bbox, and observe every surviving row kept whole (extra column
included) and present in both exports. -/
theorem claim_C10_witness :
    (∀ r ∈ ((Op.selectWithinBbox (-1 : ℤ) 6 (-1) 6).apply
        (withThicknessColumn exCollection "K_thickness" "lith" "K")).header,
      r ∈ (withThicknessColumn exCollection "K_thickness" "lith" "K").header) ∧
    (∀ r ∈ ((Op.selectWithinBbox (-1 : ℤ) 6 (-1) 6).apply
        (withThicknessColumn exCollection "K_thickness" "lith" "K")).header,
      (r.gx, r.gy, r.extra) ∈ toShape ((Op.selectWithinBbox (-1 : ℤ) 6 (-1) 6).apply
        (withThicknessColumn exCollection "K_thickness" "lith" "K")).header ∧
      (r.gx, r.gy, r.extra) ∈ toGeoparquet ((Op.selectWithinBbox (-1 : ℤ) 6 (-1) 6).apply
        (withThicknessColumn exCollection "K_thickness" "lith" "K")).header) :=
  claim_C10_header_columns_preserved
    (withThicknessColumn exCollection "K_thickness" "lith" "K")
    (Op.selectWithinBbox (-1 : ℤ) 6 (-1) 6) rfl

end GeoST
